import Mathlib

/-!
# Verification of the BiblioteEmail intent-resolution pipeline

Shallow embedding of the deterministic parts of the repository
(`app/models.py`, `app/llm_service.py`, `app/main.py`) and proofs of the
frozen specification claims about them.

Python strings are modelled as Lean `String`/`List Char` (code points).
`str.strip()` and the regex `\s` class are modelled over the ASCII
whitespace set; external collaborators (OpenAI, pyodbc, SMTP) are modelled
as explicit outcome parameters (`Except`), one per call site.
-/

set_option maxRecDepth 4000

namespace BiblioteEmail

/-! ## Python string primitives -/

/-- ASCII subset of Python's whitespace (`str.strip`, regex `\s`):
space, tab, newline, carriage return, vertical tab, form feed. -/
def pyIsSpace (c : Char) : Bool :=
  c = ' ' || c = '\t' || c = '\n' || c = '\r' || c = '\x0b' || c = '\x0c'

/-- `str.strip()` on a list of code points. -/
def pyStripL (cs : List Char) : List Char :=
  ((cs.dropWhile pyIsSpace).reverse.dropWhile pyIsSpace).reverse

/-- `str.strip()`. -/
def pyStrip (s : String) : String := ⟨pyStripL s.data⟩

/-- Python substring test `pat in s` (always true for the empty pattern). -/
def containsSub : List Char → List Char → Bool
  | [], pat => pat.isEmpty
  | s@(_ :: t), pat => pat.isPrefixOf s || containsSub t pat

/-- ASCII `str.upper()` (Python's `upper` restricted to ASCII letters). -/
def pyUpperL (cs : List Char) : List Char := cs.map Char.toUpper

/-- Split at the first occurrence of `c` (the separator is dropped). -/
def breakFirst (c : Char) : List Char → Option (List Char × List Char)
  | [] => none
  | x :: t =>
    if x = c then some ([], t)
    else match breakFirst c t with
      | none => none
      | some (a, b) => some (x :: a, b)

/-- Split at the last occurrence of `c` (the separator is dropped). -/
def breakLast (c : Char) (s : List Char) : Option (List Char × List Char) :=
  match breakFirst c s.reverse with
  | none => none
  | some (a, b) => some (b.reverse, a.reverse)

/-- `s[:n]` on code points. -/
def pyTake (n : Nat) (s : String) : String := ⟨s.data.take n⟩

/-! ## `app/models.py` — `EmailRequest` validation

The pydantic field validators of `EmailRequest`, in their declaration
order: `validate_not_empty_or_whitespace` (all three fields),
`validate_email_format` (`from_email`), `validate_body_length` (`body`).
-/

/-- Character class `[a-zA-Z0-9._%+-]` of the sender-address regex. -/
def isLocalChar (c : Char) : Bool :=
  c.isAlphanum || c = '.' || c = '_' || c = '%' || c = '+' || c = '-'

/-- Character class `[a-zA-Z0-9.-]` of the sender-address regex. -/
def isDomainChar (c : Char) : Bool :=
  c.isAlphanum || c = '.' || c = '-'

/-- `re.match(r'^[a-zA-Z0-9._%+-]+@[a-zA-Z0-9.-]+\.[a-zA-Z]{2,}$', s)`.
Since `@` occurs in no character class, a matching string has exactly one
`@`, splitting it into local part and rest; since the trailing `[a-zA-Z]{2,}`
admits no dot, the literal `\.` is the last dot of the rest.  (The Python
`$` would also match before one trailing newline, but every caller strips
the value first, so that case is unreachable and is not modelled.) -/
def matchEmail (s : List Char) : Bool :=
  match breakFirst '@' s with
  | none => false
  | some (loc, rest) =>
    !loc.isEmpty && loc.all isLocalChar && !(rest.contains '@') &&
    (match breakLast '.' rest with
     | none => false
     | some (dom, tld) =>
        !dom.isEmpty && dom.all isDomainChar &&
        decide (2 ≤ tld.length) && tld.all Char.isAlpha)

/-- A string carries a top-level-domain token when the segment after its
last dot consists of at least two ASCII letters (the `\.[a-zA-Z]{2,}$`
tail of the sender-address regex). -/
def hasTldToken (s : List Char) : Bool :=
  match breakLast '.' s with
  | none => false
  | some (_, tld) => decide (2 ≤ tld.length) && tld.all Char.isAlpha

structure EmailRequest where
  subject : String
  body : String
  from_email : String
  deriving Repr, DecidableEq

/-- `validate_not_empty_or_whitespace`: reject blank values, return the
stripped value. -/
def validateNotEmptyOrWhitespace (value : String) : Except String String :=
  let v := pyStrip value
  if v = "" then .error "Este campo no puede estar vacío" else .ok v

/-- `validate_email_format`: strip, then match the permissive email regex. -/
def validateEmailFormat (value : String) : Except String String :=
  let cleaned := pyStrip value
  if matchEmail cleaned.data then .ok cleaned
  else .error "Formato de email inválido"

/-- `validate_body_length`: at least 10 characters after stripping. -/
def validateBodyLength (value : String) : Except String String :=
  if (pyStripL value.data).length < 10 then
    .error "El mensaje debe tener al menos 10 caracteres"
  else .ok value

/-- Construction of an `EmailRequest` through pydantic validation.  Fields
are validated in declaration order (`subject`, `body`, `from_email`), each
through its validators in declaration order.  (pydantic collects all field
errors; here any error is reported as overall failure, which is all the
pipeline observes.) -/
def mkEmailRequest (subject body from_email : String) :
    Except String EmailRequest := do
  let subject ← validateNotEmptyOrWhitespace subject
  let body ← validateNotEmptyOrWhitespace body
  let body ← validateBodyLength body
  let from_email ← validateNotEmptyOrWhitespace from_email
  let from_email ← validateEmailFormat from_email
  .ok ⟨subject, body, from_email⟩

/-! ## Model of `json.loads`

Python values decoded from JSON.  Numeric literals are kept as their raw
lexeme (including the non-standard `NaN`/`Infinity`/`-Infinity` accepted
by Python); the claims never depend on numeric arithmetic. -/

inductive Json where
  | null
  | bool (b : Bool)
  | num (lex : String)
  | str (s : String)
  | arr (elems : List Json)
  | obj (fields : List (String × Json))
  deriving Repr, BEq

/-- JSON inter-token whitespace `[ \t\n\r]*`. -/
def skipJWs (cs : List Char) : List Char :=
  cs.dropWhile (fun c => c = ' ' || c = '\t' || c = '\n' || c = '\r')

def hexVal (c : Char) : Option Nat :=
  if '0' ≤ c && c ≤ '9' then some (c.toNat - 48)
  else if 'a' ≤ c && c ≤ 'f' then some (c.toNat - 87)
  else if 'A' ≤ c && c ≤ 'F' then some (c.toNat - 55)
  else none

/-- The number lexeme regex `(-?(?:0|[1-9]\d*))(\.\d+)?([eE][-+]?\d+)?`
applied at the current position; `none` when it does not match. -/
def lexNumber (cs : List Char) : Option (List Char × List Char) :=
  let (sign, cs1) : List Char × List Char :=
    match cs with
    | '-' :: t => (['-'], t)
    | _ => ([], cs)
  match cs1 with
  | [] => none
  | d :: t =>
    if d = '0' || d.isDigit then
      let (intPart, rest) : List Char × List Char :=
        if d = '0' then (sign ++ ['0'], t)
        else
          let (ds, r) := t.span Char.isDigit
          (sign ++ d :: ds, r)
      -- optional fraction part
      let (acc1, cs2) : List Char × List Char :=
        match rest with
        | '.' :: t2 =>
          let (ds, r) := t2.span Char.isDigit
          if ds.isEmpty then (intPart, rest) else (intPart ++ '.' :: ds, r)
        | _ => (intPart, rest)
      -- optional exponent part
      let (acc2, cs3) : List Char × List Char :=
        match cs2 with
        | e :: t2 =>
          if e = 'e' || e = 'E' then
            let (sgn, t3) : List Char × List Char :=
              match t2 with
              | c :: tt => if c = '+' || c = '-' then ([c], tt) else ([], t2)
              | [] => ([], t2)
            let (ds, r) := t3.span Char.isDigit
            if ds.isEmpty then (acc1, cs2) else (acc1 ++ e :: sgn ++ ds, r)
          else (acc1, cs2)
        | [] => (acc1, cs2)
      some (acc2, cs3)
    else none

/-- `py_scanstring` in strict mode, starting after the opening quote.
Valid surrogate pairs are combined; a lone surrogate escape (which Python
would keep as an unpaired code unit, unrepresentable in `Char`) is
modelled as a decode error. -/
def parseJString : Nat → List Char → List Char → Except String (String × List Char)
  | 0, _, _ => .error "Unterminated string"
  | _ + 1, [], _ => .error "Unterminated string"
  | fuel + 1, c :: t, acc =>
    if c = '"' then .ok (⟨acc.reverse⟩, t)
    else if c = '\\' then
      match t with
      | [] => .error "Unterminated string"
      | e :: t2 =>
        if e = '"' then parseJString fuel t2 ('"' :: acc)
        else if e = '\\' then parseJString fuel t2 ('\\' :: acc)
        else if e = '/' then parseJString fuel t2 ('/' :: acc)
        else if e = 'b' then parseJString fuel t2 ('\x08' :: acc)
        else if e = 'f' then parseJString fuel t2 ('\x0c' :: acc)
        else if e = 'n' then parseJString fuel t2 ('\n' :: acc)
        else if e = 'r' then parseJString fuel t2 ('\r' :: acc)
        else if e = 't' then parseJString fuel t2 ('\t' :: acc)
        else if e = 'u' then
          match t2 with
          | h1 :: h2 :: h3 :: h4 :: t3 =>
            match hexVal h1, hexVal h2, hexVal h3, hexVal h4 with
            | some a, some b, some c1, some d1 =>
              let n := ((a * 16 + b) * 16 + c1) * 16 + d1
              if 0xD800 ≤ n && n ≤ 0xDBFF then
                match t3 with
                | '\\' :: 'u' :: g1 :: g2 :: g3 :: g4 :: t4 =>
                  match hexVal g1, hexVal g2, hexVal g3, hexVal g4 with
                  | some a2, some b2, some c2, some d2 =>
                    let n2 := ((a2 * 16 + b2) * 16 + c2) * 16 + d2
                    if 0xDC00 ≤ n2 && n2 ≤ 0xDFFF then
                      let cp := 0x10000 + (n - 0xD800) * 0x400 + (n2 - 0xDC00)
                      parseJString fuel t4 (Char.ofNat cp :: acc)
                    else .error "lone surrogate escape not modelled"
                  | _, _, _, _ => .error "lone surrogate escape not modelled"
                | _ => .error "lone surrogate escape not modelled"
              else if 0xDC00 ≤ n && n ≤ 0xDFFF then
                .error "lone surrogate escape not modelled"
              else parseJString fuel t3 (Char.ofNat n :: acc)
            | _, _, _, _ => .error "Invalid uXXXX escape"
          | _ => .error "Invalid uXXXX escape"
        else .error "Invalid escape"
    else if c.toNat < 0x20 then .error "Invalid control character"
    else parseJString fuel t (c :: acc)

/-- `dict(pairs)` insertion: the position of an existing key is kept, its
value replaced; a new key is appended. -/
def insertAssoc (fields : List (String × Json)) (k : String) (v : Json) :
    List (String × Json) :=
  match fields with
  | [] => [(k, v)]
  | (k', v') :: t => if k' = k then (k', v) :: t else (k', v') :: insertAssoc t k v

/-- Member loop of `JSONObject` (first member already known to start here). -/
def parseMembersAux (f : List Char → Except String (Json × List Char)) :
    Nat → List Char → List (String × Json) → Except String (Json × List Char)
  | 0, _, _ => .error "Expecting property name enclosed in double quotes"
  | mf + 1, cs, acc =>
    match cs with
    | '"' :: t =>
      match parseJString (t.length + 1) t [] with
      | .error e => .error e
      | .ok (k, r1) =>
        match skipJWs r1 with
        | ':' :: r3 =>
          match f (skipJWs r3) with
          | .error e => .error e
          | .ok (v, r4) =>
            let acc := insertAssoc acc k v
            match skipJWs r4 with
            | ',' :: r6 => parseMembersAux f mf (skipJWs r6) acc
            | '}' :: r6 => .ok (.obj acc, r6)
            | _ => .error "Expecting comma delimiter"
        | _ => .error "Expecting colon delimiter"
    | _ => .error "Expecting property name enclosed in double quotes"

/-- Element loop of `JSONArray` (first element already known to start here). -/
def parseItemsAux (f : List Char → Except String (Json × List Char)) :
    Nat → List Char → List Json → Except String (Json × List Char)
  | 0, _, _ => .error "Expecting value"
  | mf + 1, cs, acc =>
    match f cs with
    | .error e => .error e
    | .ok (v, r1) =>
      let acc := acc ++ [v]
      match skipJWs r1 with
      | ',' :: r2 => parseItemsAux f mf (skipJWs r2) acc
      | ']' :: r2 => .ok (.arr acc, r2)
      | _ => .error "Expecting comma delimiter"

/-- `_scan_once`: decode one JSON value at the current position. -/
def parseValue : Nat → List Char → Except String (Json × List Char)
  | 0, _ => .error "Expecting value"
  | fuel + 1, cs =>
    match cs with
    | [] => .error "Expecting value"
    | c :: t =>
      if c = '"' then
        match parseJString (t.length + 1) t [] with
        | .error e => .error e
        | .ok (s, r) => .ok (.str s, r)
      else if c = '{' then
        match skipJWs t with
        | '}' :: r => .ok (.obj [], r)
        | cs' => parseMembersAux (parseValue fuel) (cs'.length + 1) cs' []
      else if c = '[' then
        match skipJWs t with
        | ']' :: r => .ok (.arr [], r)
        | cs' => parseItemsAux (parseValue fuel) (cs'.length + 1) cs' []
      else if ['n', 'u', 'l', 'l'].isPrefixOf cs then .ok (.null, cs.drop 4)
      else if ['t', 'r', 'u', 'e'].isPrefixOf cs then .ok (.bool true, cs.drop 4)
      else if ['f', 'a', 'l', 's', 'e'].isPrefixOf cs then .ok (.bool false, cs.drop 5)
      else
        match lexNumber cs with
        | some (lex, rest) => .ok (.num ⟨lex⟩, rest)
        | none =>
          if ['N', 'a', 'N'].isPrefixOf cs then .ok (.num "NaN", cs.drop 3)
          else if ['I', 'n', 'f', 'i', 'n', 'i', 't', 'y'].isPrefixOf cs then
            .ok (.num "Infinity", cs.drop 8)
          else if ['-', 'I', 'n', 'f', 'i', 'n', 'i', 't', 'y'].isPrefixOf cs then
            .ok (.num "-Infinity", cs.drop 9)
          else .error "Expecting value"

/-- `json.loads`: decode a whole document, rejecting trailing garbage. -/
def jsonParse (s : String) : Except String Json :=
  let cs := skipJWs s.data
  match parseValue (cs.length + 1) cs with
  | .error e => .error e
  | .ok (v, rest) => if (skipJWs rest).isEmpty then .ok v else .error "Extra data"

/-! ## Regex-search models for `_parse_sql_response` / `_extract_fallback_sql`

Each Python `re.search` call site is modelled by a dedicated scanning
function with the same leftmost-match semantics (`re.search` tries every
start position from the left; a lazy `.*?` stops at the first position
where the rest of the pattern matches). -/

/-- Case-insensitive prefix test (per-code-point ASCII case folding, the
effect of `re.IGNORECASE` on the literal parts of these patterns). -/
def prefixCI : List Char → List Char → Bool
  | [], _ => true
  | _ :: _, [] => false
  | p :: ps, c :: cs => (p.toUpper = c.toUpper) && prefixCI ps cs

/-- Characters strictly before the first occurrence of ```` ``` ````
(`none` if there is none). -/
def findClose : List Char → Option (List Char)
  | [] => none
  | s@(c :: t) =>
    if ['`', '`', '`'].isPrefixOf s then some []
    else (findClose t).map (c :: ·)

/-- `re.search(tag ++ r'\s*(.*?)\s*```', s, re.DOTALL [| re.IGNORECASE])`:
find the first occurrence of `tag` that is followed by a closing
```` ``` ````; the group is the enclosed span, which the `\s*`s strip of
surrounding whitespace. -/
def fencedSearch (tag : List Char) (ci : Bool) : List Char → Option (List Char)
  | [] => none
  | s@(_ :: t) =>
    if (if ci then prefixCI tag s else tag.isPrefixOf s) then
      match findClose (s.drop tag.length) with
      | some mid => some (pyStripL mid)
      | none => fencedSearch tag ci t
    else fencedSearch tag ci t

/-- `re.search(r'(\{.*\})', s, re.DOTALL)`: from the first `{` to the last
`}` after it (greedy `.*`), group includes the braces. -/
def bracesSearch (s : List Char) : Option (List Char) :=
  match breakFirst '{' s with
  | none => none
  | some (_, afterOpen) =>
    match breakLast '}' afterOpen with
    | none => none
    | some (inner, _) => some ('{' :: inner ++ ['}'])

/-- `re.search(r'SQL:\s*(.*?)(?=\n|$)', s, re.IGNORECASE | re.DOTALL)`:
after the first (case-insensitive) `SQL:`, the greedy `\s*` eats all
whitespace (newlines included) and the lazy group runs to the first
newline or the end of the string. -/
def sqlColonSearch : List Char → Option (List Char)
  | [] => none
  | s@(_ :: t) =>
    if prefixCI ['S', 'Q', 'L', ':'] s then
      some (((s.drop 4).dropWhile pyIsSpace).takeWhile (· ≠ '\n'))
    else sqlColonSearch t

/-- Characters up to and including the first `;` (`none` if there is none). -/
def takeThroughSemi : List Char → Option (List Char)
  | [] => none
  | c :: t => if c = ';' then some [';'] else (takeThroughSemi t).map (c :: ·)

/-- `re.search('(' ++ kw ++ '.*?;)', s, re.IGNORECASE | re.DOTALL)`: the
first (case-insensitive) occurrence of `kw` followed by a `;`, captured
through that first `;`. -/
def stmtSearch (kw : List Char) : List Char → Option (List Char)
  | [] => none
  | s@(_ :: t) =>
    if prefixCI kw s then
      match takeThroughSemi (s.drop kw.length) with
      | some tail => some (s.take kw.length ++ tail)
      | none => stmtSearch kw t
    else stmtSearch kw t

/-! ## `app/llm_service.py` -/

/-- The default recovery query of `_extract_fallback_sql`. -/
def defaultFallbackSql : String := "SELECT * FROM books WHERE available = 1"

/-- `_extract_fallback_sql`: try the SQL patterns in order, return the
stripped first group, else the safe default. -/
def extractFallbackSql (response : String) : String :=
  let cs := response.data
  match sqlColonSearch cs with
  | some g => ⟨pyStripL g⟩
  | none =>
  match fencedSearch "```sql".data true cs with
  | some g => ⟨pyStripL g⟩
  | none =>
  match stmtSearch "SELECT".data cs with
  | some g => ⟨pyStripL g⟩
  | none =>
  match stmtSearch "INSERT".data cs with
  | some g => ⟨pyStripL g⟩
  | none =>
  match stmtSearch "UPDATE".data cs with
  | some g => ⟨pyStripL g⟩
  | none =>
  match stmtSearch "DELETE".data cs with
  | some g => ⟨pyStripL g⟩
  | none => defaultFallbackSql

/-- `_extract_operation_type`: keyword classification over the uppercased
reply, defaulting to `LIST_BOOKS`. -/
def extractOperationType (response : String) : String :=
  let up := pyUpperL response.data
  if containsSub up "RESERVE".data || containsSub up "RESERVAR".data then
    "RESERVE_BOOK"
  else if containsSub up "RENEW".data || containsSub up "RENOVAR".data then
    "RENEW_RESERVATION"
  else if containsSub up "CANCEL".data || containsSub up "CANCELAR".data then
    "CANCEL_RESERVATION"
  else if containsSub up "ADD".data || containsSub up "AGREGAR".data then
    "ADD_BOOK"
  else if containsSub up "REMOVE".data || containsSub up "ELIMINAR".data then
    "REMOVE_BOOK"
  else if containsSub up "LIST".data || containsSub up "MOSTRAR".data then
    "LIST_BOOKS"
  else "LIST_BOOKS"

/-- Python `key in parsed` for a decoded JSON value: key lookup for a
dict, element equality for a list, substring test for a string, and a
`TypeError` (modelled as `.error`) for the non-iterable scalars. -/
def pyContainsKey (parsed : Json) (key : String) : Except String Bool :=
  match parsed with
  | .obj fields => .ok (fields.any (fun kv => kv.1 = key))
  | .arr elems => .ok (elems.any (fun v => v == Json.str key))
  | .str s => .ok (containsSub s.data key.data)
  | _ => .error "argument of type is not iterable"

/-- `all(key in parsed for key in [...])` with `TypeError` propagation. -/
def checkAllKeys (parsed : Json) : List String → Except String Bool
  | [] => .ok true
  | k :: ks =>
    match pyContainsKey parsed k with
    | .error e => .error e
    | .ok false => .ok false
    | .ok true => checkAllKeys parsed ks

/-- The recovery dictionary built in the `except` clause of
`_parse_sql_response` (note it is built from the original `response`
argument, not the extracted candidate). -/
def fallbackDict (response : String) (msg : String) : Json :=
  let fb := extractFallbackSql response
  let op := extractOperationType response
  .obj [("sql", .str fb),
        ("operation_type", .str (if op = "" then "error" else op)),
        ("explanation",
         .str ("Error parsing response: " ++ msg ++ ". Raw: "
               ++ pyTake 200 response ++ "..."))]

/-- The candidate payload `_parse_sql_response` hands to `json.loads`:
the group of the first matching pattern (the loop breaks at the first
match), subject to the `if json_match:` truthiness guard — an *empty*
group is falsy, so the candidate stays the whole stripped reply; a
non-empty group is stripped again and used. -/
def jsonCandidate (response : String) : String :=
  let cleaned := pyStrip response
  let group : Option (List Char) :=
    match fencedSearch "```json".data false cleaned.data with
    | some m => some m
    | none =>
      match fencedSearch "```".data false cleaned.data with
      | some m => some m
      | none => bracesSearch cleaned.data
  match group with
  | some m => if m.isEmpty then cleaned else ⟨pyStripL m⟩
  | none => cleaned

/-- `_parse_sql_response`.  The `Bool` in the result records whether the
recovery heuristics were consulted.  An `.error` is an exception escaping
the function: only `json.JSONDecodeError` and `ValueError` are caught, so
the `TypeError`s raised by `key in parsed` on a decoded scalar and by the
`parsed['operation_type']` subscript on a decoded list/string propagate. -/
def parseSqlResponseT (response : String) : Except String (Json × Bool) :=
  match jsonParse (jsonCandidate response) with
  | .ok parsed =>
    match checkAllKeys parsed ["sql", "operation_type", "explanation"] with
    | .error e => .error e
    | .ok true =>
      match parsed with
      | .obj _ => .ok (parsed, false)
      | _ => .error "indices must be integers"
    | .ok false => .ok (fallbackDict response "Estructura JSON incompleta", true)
  | .error e => .ok (fallbackDict response e, true)

/-- The error dictionary of `natural_language_to_sql`'s `except` clause. -/
def errObj (msg : String) : Json :=
  .obj [("sql", .null), ("operation_type", .str "error"),
        ("explanation", .str ("Error processing request: " ++ msg))]

/-- `natural_language_to_sql`, with the OpenAI chat call's outcome as an
explicit parameter (`.error` covers any exception inside the `try`,
including the exceptions `_parse_sql_response` lets escape). -/
def naturalLanguageToSql (completion : Except String String) : Json :=
  match completion with
  | .error e => errObj e
  | .ok content =>
    match parseSqlResponseT (pyStrip content) with
    | .ok (d, _) => d
    | .error e => errObj e

/-- The double-encoding repair table of `_clean_encoding`, in source
order (keys are the mojibake two-code-point sequences of the source). -/
def encodingFixes : List (String × String) :=
  [("Â¡", "¡"), ("Â¿", "¿"),
   ("Ã¡", "á"), ("Ã©", "é"),
   ("Ã­", "í"), ("Ã³", "ó"),
   ("Ãº", "ú"), ("Ã±", "ñ"),
   ("Ã\u0081", "Á"), ("Ã‰", "É"),
   ("Ã\u008D", "Í"), ("Ã“", "Ó"),
   ("Ãš", "Ú"), ("Ã‘", "Ñ"),
   ("Ã¼", "ü"), ("Ãœ", "Ü")]

/-- `str.replace`: replace all non-overlapping occurrences left to right
(fuelled for structural recursion; the table's patterns are non-empty, so
the fuel never runs out). -/
def replaceFuel : Nat → List Char → List Char → List Char → List Char
  | 0, s, _, _ => s
  | fuel + 1, s, pat, rep =>
    match s with
    | [] => []
    | c :: t =>
      if pat.isPrefixOf (c :: t) then
        rep ++ replaceFuel fuel ((c :: t).drop pat.length) pat rep
      else c :: replaceFuel fuel t pat rep

def pyReplace (s pat rep : String) : String :=
  ⟨replaceFuel s.data.length s.data pat.data rep.data⟩

/-- `_clean_encoding`: sequential `str.replace` over the repair table. -/
def cleanEncoding (text : String) : String :=
  encodingFixes.foldl (fun acc kv => pyReplace acc kv.1 kv.2) text

/-! ## `app/main.py` — operation executor

`execute_sql_query` (the second definition, lines 339-379, which shadows
the first).  The storage collaborator is modelled by `DbBehavior`: one
outcome per call the function makes, `some msg` meaning the call raises. -/

/-- A fetched row after the `dict(row)` conversion. -/
def Row := List (String × String)
deriving Repr, DecidableEq

inductive SqlExecResult where
  | rows (rs : List Row)
  | rowsAffected (n : Int)
  | dbError (msg : String)
  deriving Repr, DecidableEq

structure DbBehavior where
  connRaises : Option String := none
  cursorRaises : Option String := none
  executeRaises : Option String := none
  fetchRaises : Option String := none
  /-- `hasattr(results, '__iter__')` on the fetched value. -/
  fetchIterable : Bool := true
  fetchedRows : List Row := []
  commitRaises : Option String := none
  /-- `none` models a cursor without `rowcount` (`getattr` default 1). -/
  rowcount : Option Int := some 1
  cursorCloseRaises : Bool := false
  connCloseRaises : Bool := false

/-- `sql.strip().upper().startswith('SELECT')`. -/
def startsWithSelect (sql : String) : Bool :=
  "SELECT".data.isPrefixOf (pyUpperL (pyStripL sql.data))

/-- The `try` body of `execute_sql_query`; `.error` is an exception
reaching the outer `except Exception` clause. -/
def executeSqlQueryBody (db : DbBehavior) (sql : String) :
    Except String SqlExecResult :=
  match db.connRaises with
  | some e => .error e
  | none =>
  match db.cursorRaises with
  | some e => .error e
  | none =>
  match db.executeRaises with
  | some e => .error e
  | none =>
  if startsWithSelect sql then
    -- inner try: any fetch/conversion error is answered with []
    match db.fetchRaises with
    | some _ => .ok (.rows [])
    | none => .ok (.rows (if db.fetchIterable then db.fetchedRows else []))
  else
    -- inner try around commit; its failure is answered with an error map
    match db.commitRaises with
    | some e => .ok (.dbError e)
    | none => .ok (.rowsAffected (db.rowcount.getD 1))

structure ExecOutcome where
  result : SqlExecResult
  cursorCloseAttempted : Bool
  connCloseAttempted : Bool
  deriving Repr, DecidableEq

/-- `execute_sql_query`: the body under `except Exception` (which converts
any escaped exception into `{"error": str(e)}`) and the `finally` block,
which attempts both releases inside bare `try/except: pass`. -/
def executeSqlQuery (db : DbBehavior) (sql : String) : ExecOutcome :=
  let res : SqlExecResult :=
    match executeSqlQueryBody db sql with
    | .ok r => r
    | .error e => .dbError e
  { result := res, cursorCloseAttempted := true, connCloseAttempted := true }

/-! ## `app/llm_service.py` — responder (needs `SqlExecResult`) -/

/-- Models Python `repr` of a short string (no escaping needed here). -/
def reprStr (s : String) : String := "'" ++ s ++ "'"

/-- Models `str()` of the executor's result as interpolated in f-strings. -/
def pyStr : SqlExecResult → String
  | .rows rs =>
    "[" ++ ", ".intercalate (rs.map (fun r =>
      "\x7b" ++ ", ".intercalate (r.map (fun kv => reprStr kv.1 ++ ": " ++ reprStr kv.2)) ++ "\x7d")) ++ "]"
  | .rowsAffected n => "\x7b'rows_affected': " ++ toString n ++ "\x7d"
  | .dbError e => "\x7b'error': " ++ reprStr e ++ "\x7d"

/-- `_get_fallback_response`. -/
def getFallbackResponse (user_request : String) (sql_result : SqlExecResult) : String :=
  "¡Hola! Recibí tu solicitud: '" ++ user_request
    ++ "'. He procesado tu solicitud y el resultado fue: " ++ pyStr sql_result

/-- `format_response_to_natural_language`, with the OpenAI call's outcome
explicit.  On success the reply is stripped and encoding-repaired; on any
exception the deterministic fallback is returned.  (`operation_type` only
feeds the prompt, so the result does not depend on it.) -/
def formatResponseToNaturalLanguage (completion : Except String String)
    (sql_result : SqlExecResult) (_operation_type : Json)
    (user_request : String) : String :=
  match completion with
  | .ok raw => cleanEncoding (pyStrip raw)
  | .error _ => getFallbackResponse user_request sql_result

/-! ## `app/main.py` — single-request pipeline -/

/-- Python truthiness of a decoded JSON value (`not llm_result.get("sql")`). -/
def pyTruthy : Json → Bool
  | .null => false
  | .bool b => b
  | .str s => !s.isEmpty
  | .arr l => !l.isEmpty
  | .obj f => !f.isEmpty
  | .num lex =>
    lex = "NaN" || lex = "Infinity" || lex = "-Infinity" ||
    (lex.data.takeWhile (fun c => c ≠ 'e' && c ≠ 'E')).any
      (fun c => c.isDigit && c ≠ '0')

/-- Dictionary field access (`d.get(key)` / `d[key]`); the pipeline only
applies it to the parser's dictionaries, which carry all three keys. -/
def jsonGet (d : Json) (key : String) : Option Json :=
  match d with
  | .obj fields => fields.lookup key
  | _ => none

structure OpData where
  operation : Json
  response_sent : Bool
  sql_generated : Json
  user_response : String
  deriving Repr

structure OperationResult where
  success : Bool
  message : String
  data : Option OpData := none
  deriving Repr

/-- `OperationResult` construction through its pydantic validator
(`validate_message_not_empty`): blank messages are rejected, accepted
messages are stored stripped. -/
def mkOperationResult (success : Bool) (message : String)
    (data : Option OpData) : Except String OperationResult :=
  let m := pyStrip message
  if m = "" then .error "1 validation error for OperationResult (message)"
  else .ok { success := success, message := m, data := data }

/-- One run's collaborator outcomes for `process_single_email`. -/
structure LlmEnv where
  completion : Except String String := .error "no llm"
  formatCompletion : Except String String := .error "no llm"
  db : DbBehavior := {}
  sendOutcome : Except String Bool := .ok false

/-- Which external stages a run reached. -/
structure PipelineTrace where
  llmCalled : Bool := false
  dbExecuted : Bool := false
  formatCalled : Bool := false
  sendAttempted : Bool := false
  deriving Repr, DecidableEq

/-- The `except Exception` clause of `process_single_email`. -/
def outerError (e : String) : OperationResult :=
  { success := false, message := pyStrip ("Error procesando email: " ++ e) }

/-- Body of `process_single_email` on an already-validated
`EmailRequest` (the FastAPI layer runs pydantic validation before the
function body is entered). -/
def processValidated (env : LlmEnv) (req : EmailRequest) :
    OperationResult × PipelineTrace :=
  if req.from_email.isEmpty || !(req.from_email.data.contains '@') then
    ({ success := false, message := "Email del remitente no válido" }, {})
  else if (pyStrip req.subject).isEmpty || (pyStrip req.body).isEmpty then
    ({ success := false,
       message := "El asunto y el cuerpo del mensaje no pueden estar vacíos" }, {})
  else
    let llmResult := naturalLanguageToSql env.completion
    let tr : PipelineTrace := { llmCalled := true }
    let sqlVal := (jsonGet llmResult "sql").getD .null
    if !pyTruthy sqlVal then
      let msgVal := (jsonGet llmResult "explanation").getD
        (.str "No se pudo entender la solicitud")
      match msgVal with
      | .str m =>
        match mkOperationResult false m none with
        | .ok r => (r, tr)
        | .error e => (outerError e, tr)
      | _ => (outerError "1 validation error for OperationResult (message)", tr)
    else
      let sqlResult : SqlExecResult :=
        match sqlVal with
        | .str s => (executeSqlQuery env.db s).result
        | _ => .dbError "object has no attribute strip"
      let tr := { tr with dbExecuted := true }
      let opTypeVal := (jsonGet llmResult "operation_type").getD .null
      let natural :=
        formatResponseToNaturalLanguage env.formatCompletion sqlResult opTypeVal req.body
      let tr := { tr with formatCalled := true }
      let (responseSent, tr) :=
        if req.from_email.data.contains '@' then
          match env.sendOutcome with
          | .ok b => (b, { tr with sendAttempted := true })
          | .error _ => (false, { tr with sendAttempted := true })
        else (false, tr)
      ({ success := true, message := "Email procesado exitosamente",
         data := some ⟨opTypeVal, responseSent, sqlVal, natural⟩ }, tr)

/-- The spec's `submit_intent`: pydantic ingress validation (a pydantic
error surfaces as a failure to the caller — HTTP 422 on the single
endpoint, an `errors` entry in the batch) followed by the body. -/
def submitIntent (env : LlmEnv) (subject body from_email : String) :
    OperationResult × PipelineTrace :=
  match mkEmailRequest subject body from_email with
  | .error e => ({ success := false, message := e }, {})
  | .ok req => processValidated env req

/-! ## `app/main.py` — batch entry point (`process_all_pending_emails`) -/

/-- One unread message as returned by `fetch_unread_emails`. -/
structure Email where
  fromAddr : String
  subject : String
  body : String
  deriving Repr

/-- Observable batch events, in order: each message handled, and each
`await asyncio.sleep(2)` throttle. -/
inductive BatchEvent where
  | processed (fromAddr : String) (success : Bool)
  | constructionFailed (fromAddr : String)
  | sleep (seconds : Nat)
  deriving Repr, DecidableEq

structure BatchOutcome where
  /-- The function's Python return value: it has no `return` statement. -/
  returnValue : Option (Nat × List (String × String)) := none
  processedCount : Nat := 0
  errors : List (String × String) := []
  events : List BatchEvent := []
  deriving Repr

structure BatchEnv where
  fetchOutcome : Except String (List Email) := .ok []
  /-- Collaborator outcomes for the i-th message's `process_single_email`. -/
  envFor : Nat → LlmEnv := fun _ => {}

/-- The `for` loop of `process_all_pending_emails`: per message, build the
`EmailRequest` (a pydantic error lands in the per-message `except`, which
appends an error and `continue`s — skipping that message's sleep), process
it, aggregate, then sleep 2 seconds. -/
def batchLoop (benv : BatchEnv) :
    Nat → List Email → Nat → List (String × String) → List BatchEvent →
    BatchOutcome
  | _, [], count, errors, events =>
    { returnValue := none, processedCount := count, errors := errors,
      events := events }
  | i, e :: rest, count, errors, events =>
    match mkEmailRequest e.subject e.body e.fromAddr with
    | .error msg =>
      batchLoop benv (i + 1) rest count
        (errors ++ [(e.fromAddr, "Error procesando email de " ++ e.fromAddr ++ ": " ++ msg)])
        (events ++ [.constructionFailed e.fromAddr])
    | .ok req =>
      let (result, _) := processValidated (benv.envFor i) req
      if result.success then
        batchLoop benv (i + 1) rest (count + 1) errors
          (events ++ [.processed e.fromAddr true, .sleep 2])
      else
        batchLoop benv (i + 1) rest count
          (errors ++ [(e.fromAddr, result.message)])
          (events ++ [.processed e.fromAddr false, .sleep 2])

/-- `process_all_pending_emails`: fetch the unread messages and run the
sequential loop; a fetch failure is swallowed by the outer `except`.  The
function returns `None` on every path. -/
def processAllPendingEmails (benv : BatchEnv) : BatchOutcome :=
  match benv.fetchOutcome with
  | .error _ => { returnValue := none }
  | .ok emails => batchLoop benv 0 emails 0 [] []

/-- Summary of handling one (index, message) pair — used to state what the
loop aggregates. -/
def batchStep (benv : BatchEnv) (ie : Nat × Email) :
    Option String × List BatchEvent :=
  match mkEmailRequest ie.2.subject ie.2.body ie.2.fromAddr with
  | .error msg =>
    (some ("Error procesando email de " ++ ie.2.fromAddr ++ ": " ++ msg),
     [.constructionFailed ie.2.fromAddr])
  | .ok req =>
    if (processValidated (benv.envFor ie.1) req).1.success then
      (none, [.processed ie.2.fromAddr true, .sleep 2])
    else
      (some (processValidated (benv.envFor ie.1) req).1.message,
       [.processed ie.2.fromAddr false, .sleep 2])

/-- A one-message batch environment used to evaluate the batch entry
point at a concrete input (the message fails since the default stub
provider errors out). -/
def sampleEmails : List Email :=
  [⟨"user@test.com", "Reserva", "Quiero reservar un libro"⟩]

def sampleBatchEnv : BatchEnv := { fetchOutcome := .ok sampleEmails }

/-! ## Helper lemmas -/

theorem dropWhile_dropWhile (p : Char → Bool) (l : List Char) :
    (l.dropWhile p).dropWhile p = l.dropWhile p := by
  induction l with
  | nil => rfl
  | cons c t ih =>
    by_cases h : p c
    · simp [List.dropWhile_cons, h, ih]
    · simp [List.dropWhile_cons, h]

theorem dropWhile_append_cons (p : Char → Bool) (a : List Char) (x : Char)
    (xs : List Char) (hx : p x = false) :
    (a ++ x :: xs).dropWhile p = a.dropWhile p ++ x :: xs := by
  induction a with
  | nil => simp [List.dropWhile_cons, hx]
  | cons c t ih =>
    by_cases h : p c
    · simpa [List.dropWhile_cons, h] using ih
    · simp [List.dropWhile_cons, h]

theorem pyStripL_leftClean (l : List Char) :
    (pyStripL l).dropWhile pyIsSpace = pyStripL l := by
  unfold pyStripL
  rcases hA : l.dropWhile pyIsSpace with _ | ⟨x, t⟩
  · simp
  · have hx : pyIsSpace x = false := by
      by_contra hpx
      rw [Bool.not_eq_false] at hpx
      have h1 := dropWhile_dropWhile pyIsSpace l
      rw [hA] at h1
      simp only [List.dropWhile_cons, hpx, if_true] at h1
      have hsub : List.Sublist (t.dropWhile pyIsSpace) t :=
        List.dropWhile_sublist _
      have hle := List.Sublist.length_le hsub
      rw [h1] at hle
      simp at hle
    rw [List.reverse_cons, List.dropWhile_append]
    cases hE : (List.dropWhile pyIsSpace t.reverse).isEmpty with
    | true => simp [hE, List.dropWhile_cons, hx]
    | false => simp [hE, List.dropWhile_cons, hx]

theorem pyStripL_rightCleanRev (l : List Char) :
    (pyStripL l).reverse.dropWhile pyIsSpace = (pyStripL l).reverse := by
  unfold pyStripL
  rw [List.reverse_reverse]
  exact dropWhile_dropWhile _ _

theorem pyStripL_idem (l : List Char) : pyStripL (pyStripL l) = pyStripL l := by
  conv_lhs => rw [pyStripL, pyStripL_leftClean, pyStripL_rightCleanRev,
    List.reverse_reverse]

theorem pyStrip_idem (s : String) : pyStrip (pyStrip s) = pyStrip s := by
  show (⟨pyStripL (pyStripL s.data)⟩ : String) = ⟨pyStripL s.data⟩
  rw [pyStripL_idem]

theorem pyStripL_subset (l : List Char) : pyStripL l ⊆ l := by
  intro x hx
  unfold pyStripL at hx
  rw [List.mem_reverse] at hx
  have hs1 : List.Sublist
      (((l.dropWhile pyIsSpace).reverse).dropWhile pyIsSpace)
      ((l.dropWhile pyIsSpace).reverse) := List.dropWhile_sublist _
  have h1 := hs1.subset hx
  rw [List.mem_reverse] at h1
  have hs2 : List.Sublist (l.dropWhile pyIsSpace) l := List.dropWhile_sublist _
  exact hs2.subset h1

theorem breakFirst_eq {c : Char} {s a b : List Char}
    (h : breakFirst c s = some (a, b)) : s = a ++ c :: b ∧ c ∉ a := by
  induction s generalizing a with
  | nil => simp [breakFirst] at h
  | cons x t ih =>
    rw [breakFirst] at h
    by_cases hx : x = c
    · simp only [hx, if_true, Option.some.injEq, Prod.mk.injEq] at h
      obtain ⟨rfl, rfl⟩ := h
      simp [hx]
    · simp only [hx, if_false] at h
      rcases hb : breakFirst c t with _ | ⟨a', b'⟩
      · rw [hb] at h; simp at h
      · rw [hb] at h
        simp only [Option.some.injEq, Prod.mk.injEq] at h
        obtain ⟨rfl, rfl⟩ := h
        obtain ⟨rfl, hnot⟩ := ih hb
        constructor
        · simp
        · simp only [List.mem_cons, not_or]
          exact ⟨Ne.symm hx, hnot⟩

theorem breakFirst_append {c : Char} {x : List Char} (y : List Char)
    (hx : c ∉ x) : breakFirst c (x ++ c :: y) = some (x, y) := by
  induction x with
  | nil => simp [breakFirst]
  | cons a t ih =>
    have ha : a ≠ c := fun h => hx (by simp [h])
    rw [List.cons_append, breakFirst]
    simp only [ha, if_false]
    rw [ih (fun h => hx (List.mem_cons_of_mem _ h))]

theorem matchEmail_ne_nil {s : List Char} (h : matchEmail s = true) : s ≠ [] := by
  intro rfl_s
  subst rfl_s
  simp [matchEmail, breakFirst] at h

theorem matchEmail_contains_at {s : List Char} (h : matchEmail s = true) :
    '@' ∈ s := by
  rcases hb : breakFirst '@' s with _ | ⟨loc, rest⟩
  · rw [matchEmail, hb] at h; simp at h
  · obtain ⟨hs, _⟩ := breakFirst_eq hb
    rw [hs]
    simp

theorem matchEmail_hasTld {s : List Char} (h : matchEmail s = true) :
    hasTldToken s = true := by
  rcases hb : breakFirst '@' s with _ | ⟨loc, rest⟩
  · rw [matchEmail, hb] at h; simp at h
  · rw [matchEmail, hb] at h
    simp only [Bool.and_eq_true] at h
    rcases hl : breakLast '.' rest with _ | ⟨dom, tld⟩
    · rw [hl] at h; simp at h
    · rw [hl] at h
      simp only [Bool.and_eq_true, decide_eq_true_eq] at h
      obtain ⟨-, ⟨⟨-, hlen⟩, halpha⟩⟩ := h
      -- unpack breakLast
      rw [breakLast] at hl
      rcases hf : breakFirst '.' rest.reverse with _ | ⟨a, b⟩
      · rw [hf] at hl; simp at hl
      · rw [hf] at hl
        simp only [Option.some.injEq, Prod.mk.injEq] at hl
        obtain ⟨rfl, rfl⟩ := hl
        obtain ⟨hrev, hnot⟩ := breakFirst_eq hf
        have hs : s = loc ++ '@' :: rest := (breakFirst_eq hb).1
        have hrest : rest = b.reverse ++ '.' :: a.reverse := by
          have := congrArg List.reverse hrev
          simpa using this
        -- the last dot of s is the last dot of rest
        have hsplit : s = (loc ++ '@' :: b.reverse) ++ '.' :: a.reverse := by
          rw [hs, hrest]; simp
        rw [hasTldToken, breakLast]
        have hnotrev : '.' ∉ a.reverse.reverse := by
          simpa using hnot
        have : s.reverse = a.reverse.reverse ++ '.' :: (loc ++ '@' :: b.reverse).reverse := by
          rw [hsplit]
          simp
        rw [this, breakFirst_append _ hnotrev]
        simp only [List.reverse_reverse, List.all_reverse, List.length_reverse]
          at hlen halpha ⊢
        simp [hlen, halpha]

theorem mkEmailRequest_ok {s b f : String} {req : EmailRequest}
    (h : mkEmailRequest s b f = .ok req) :
    req.subject = pyStrip s ∧ pyStrip s ≠ "" ∧
    req.body = pyStrip b ∧ pyStrip b ≠ "" ∧
    ¬ (pyStripL b.data).length < 10 ∧
    req.from_email = pyStrip f ∧ matchEmail (pyStripL f.data) = true := by
  unfold mkEmailRequest at h
  by_cases h1 : pyStrip s = ""
  · simp [validateNotEmptyOrWhitespace, h1, Bind.bind, Except.bind] at h
  by_cases h2 : pyStrip b = ""
  · simp [validateNotEmptyOrWhitespace, h1, h2, Bind.bind, Except.bind] at h
  have hdid : pyStripL (pyStrip b).data = pyStripL b.data := by
    rw [show (pyStrip b).data = pyStripL b.data from rfl, pyStripL_idem]
  by_cases h3 : (pyStripL b.data).length < 10
  · have h3' : (pyStripL (pyStrip b).data).length < 10 := by rw [hdid]; exact h3
    simp [validateNotEmptyOrWhitespace, validateBodyLength, h1, h2, h3',
      Bind.bind, Except.bind] at h
  have h3' : ¬ (pyStripL (pyStrip b).data).length < 10 := by rw [hdid]; exact h3
  by_cases h4 : pyStrip f = ""
  · simp [validateNotEmptyOrWhitespace, validateBodyLength, h1, h2, h3', h4,
      Bind.bind, Except.bind] at h
  have hfid : (pyStrip (pyStrip f)).data = pyStripL f.data := by
    rw [pyStrip_idem]; rfl
  by_cases h5 : matchEmail (pyStripL f.data) = true
  · have h5' : matchEmail (pyStrip (pyStrip f)).data = true := by
      rw [hfid]; exact h5
    simp only [validateNotEmptyOrWhitespace, validateBodyLength,
      validateEmailFormat, h1, h2, h3', h4, h5', Bind.bind, Except.bind,
      if_false, if_true, ite_false, ite_true, Except.ok.injEq] at h
    obtain rfl := h
    refine ⟨rfl, h1, rfl, h2, h3, pyStrip_idem f, h5⟩
  · have h5' : matchEmail (pyStrip (pyStrip f)).data = false := by
      rw [hfid]
      exact Bool.not_eq_true _ ▸ (by simpa using h5)
    simp [validateNotEmptyOrWhitespace, validateBodyLength, validateEmailFormat,
      h1, h2, h3', h4, h5', Bind.bind, Except.bind] at h

/-! ## Claim theorems -/

/-- **C2.**  A request whose sender address lacks an `@` or a
top-level-domain token, or whose body is shorter than 10 characters after
trimming, fails pydantic validation, so processing it yields a failure
result and the LLM provider is never invoked. -/
theorem C2_prevalidation_failure (env : LlmEnv)
    (subject body from_email : String)
    (h : '@' ∉ from_email.data ∨
         hasTldToken (pyStripL from_email.data) = false ∨
         (pyStripL body.data).length < 10) :
    (submitIntent env subject body from_email).1.success = false ∧
    (submitIntent env subject body from_email).2.llmCalled = false := by
  unfold submitIntent
  rcases hm : mkEmailRequest subject body from_email with e | req
  · exact ⟨rfl, rfl⟩
  · exfalso
    obtain ⟨-, -, -, -, hlen, -, hmatch⟩ := mkEmailRequest_ok hm
    rcases h with h | h | h
    · exact h (pyStripL_subset _ (matchEmail_contains_at hmatch))
    · rw [matchEmail_hasTld hmatch] at h
      exact Bool.noConfusion h
    · exact hlen h

/-- Witness for C2: a sender address with no `@` at all. -/
theorem C2_prevalidation_failure_witness :
    ('@' ∉ "not-an-email".data ∨
     hasTldToken (pyStripL "not-an-email".data) = false ∨
     (pyStripL "Quiero reservar 1984 de George Orwell".data).length < 10) ∧
    ((submitIntent {} "Reserva" "Quiero reservar 1984 de George Orwell"
        "not-an-email").1.success = false ∧
     (submitIntent {} "Reserva" "Quiero reservar 1984 de George Orwell"
        "not-an-email").2.llmCalled = false) :=
  ⟨Or.inl (by decide),
   C2_prevalidation_failure {} "Reserva"
     "Quiero reservar 1984 de George Orwell" "not-an-email"
     (Or.inl (by decide))⟩

/-- **C4, counterexample.**  As stated the claim is false: a failing
fetch on a SELECT query is answered with the empty row list by the inner
`except` (main.py:354-356), not with a mapping carrying an error
description. -/
theorem C4_counterexample :
    (executeSqlQuery { fetchRaises := some "fetch failed" }
        "SELECT * FROM books").result = .rows [] ∧
    ¬ ∃ e, (executeSqlQuery { fetchRaises := some "fetch failed" }
        "SELECT * FROM books").result = .dbError e := by
  refine ⟨rfl, ?_⟩
  rintro ⟨e, he⟩
  rw [show (executeSqlQuery { fetchRaises := some "fetch failed" }
      "SELECT * FROM books").result = .rows [] from rfl] at he
  exact SqlExecResult.noConfusion he

/-- **C4, amended.**  `execute_sql_query` never lets a storage failure
escape: an exception from the body surfaces only as an `{"error": ...}`
result; a commit failure is likewise converted to an error mapping, while
a fetch failure on a SELECT is answered with the empty row list instead;
both releases are attempted on every exit path; and the outcome is
unchanged by release failures (they are swallowed by the bare
`except: pass` blocks). -/
theorem C4_executor_never_raises (db : DbBehavior) (sql : String) :
    (executeSqlQuery db sql).cursorCloseAttempted = true ∧
    (executeSqlQuery db sql).connCloseAttempted = true ∧
    (∀ e, executeSqlQueryBody db sql = .error e →
      (executeSqlQuery db sql).result = .dbError e) ∧
    (∀ e, db.connRaises = none → db.cursorRaises = none →
      db.executeRaises = none → db.fetchRaises = some e →
      startsWithSelect sql = true →
      (executeSqlQuery db sql).result = .rows []) ∧
    (∀ e, db.connRaises = none → db.cursorRaises = none →
      db.executeRaises = none → db.commitRaises = some e →
      startsWithSelect sql = false →
      (executeSqlQuery db sql).result = .dbError e) ∧
    (∀ b1 b2, executeSqlQuery
        { db with cursorCloseRaises := b1, connCloseRaises := b2 } sql
      = executeSqlQuery db sql) := by
  refine ⟨rfl, rfl, ?_, ?_, ?_, ?_⟩
  · intro e he
    unfold executeSqlQuery
    rw [he]
  · intro e h1 h2 h3 h4 h5
    unfold executeSqlQuery executeSqlQueryBody
    rw [h1, h2, h3, h4]
    simp [h5]
  · intro e h1 h2 h3 h4 h5
    unfold executeSqlQuery executeSqlQueryBody
    rw [h1, h2, h3, h4]
    simp [h5]
  · intro b1 b2
    rfl

/-- Witness for amended C4: a refused connection is converted into an
error map with both releases attempted, and a failing fetch on a SELECT
yields the empty row list. -/
theorem C4_executor_never_raises_witness :
    (executeSqlQuery { connRaises := some "connection refused" }
        "DELETE FROM books").result = .dbError "connection refused" ∧
    (executeSqlQuery { fetchRaises := some "fetch failed" }
        "SELECT * FROM books").result = .rows [] ∧
    (executeSqlQuery { connRaises := some "connection refused" }
        "DELETE FROM books").cursorCloseAttempted = true ∧
    (executeSqlQuery { connRaises := some "connection refused" }
        "DELETE FROM books").connCloseAttempted = true :=
  ⟨(C4_executor_never_raises { connRaises := some "connection refused" }
      "DELETE FROM books").2.2.1 "connection refused" rfl,
   (C4_executor_never_raises { fetchRaises := some "fetch failed" }
      "SELECT * FROM books").2.2.2.1 "fetch failed" rfl rfl rfl rfl
     (by decide),
   (C4_executor_never_raises { connRaises := some "connection refused" }
      "DELETE FROM books").1,
   (C4_executor_never_raises { connRaises := some "connection refused" }
      "DELETE FROM books").2.1⟩

/-- **C5, counterexample.**  As stated the claim is false: when the
storage connection is refused, a SELECT-prefixed query yields the error
mapping, not a sequence of rows. -/
theorem C5_counterexample :
    startsWithSelect "SELECT * FROM books" = true ∧
    (executeSqlQuery { connRaises := some "connection refused" }
        "SELECT * FROM books").result = .dbError "connection refused" ∧
    ¬ ∃ rs, (executeSqlQuery { connRaises := some "connection refused" }
        "SELECT * FROM books").result = .rows rs := by
  refine ⟨by decide, rfl, ?_⟩
  rintro ⟨rs, hrs⟩
  rw [show (executeSqlQuery { connRaises := some "connection refused" }
      "SELECT * FROM books").result = .dbError "connection refused" from rfl] at hrs
  exact SqlExecResult.noConfusion hrs

/-- **C5, amended.**  When connection, cursor and execute succeed: a query
whose trimmed uppercased text starts with `SELECT` yields a (possibly
empty) row sequence — even if the fetch fails; any other query yields a
`rows_affected` mapping when the commit succeeds, and an error mapping
when the commit fails. -/
theorem C5_executor_result_shape (db : DbBehavior) (sql : String)
    (h1 : db.connRaises = none) (h2 : db.cursorRaises = none)
    (h3 : db.executeRaises = none) :
    (startsWithSelect sql = true →
      ∃ rs, (executeSqlQuery db sql).result = .rows rs) ∧
    (startsWithSelect sql = false → db.commitRaises = none →
      ∃ n, (executeSqlQuery db sql).result = .rowsAffected n) ∧
    (startsWithSelect sql = false → ∀ e, db.commitRaises = some e →
      (executeSqlQuery db sql).result = .dbError e) := by
  refine ⟨?_, ?_, ?_⟩
  · intro hs
    unfold executeSqlQuery executeSqlQueryBody
    rw [h1, h2, h3]
    rcases hf : db.fetchRaises with _ | e <;> simp [hs, hf]
  · intro hs hc
    unfold executeSqlQuery executeSqlQueryBody
    rw [h1, h2, h3, hc]
    simp [hs]
  · intro hs e hc
    unfold executeSqlQuery executeSqlQueryBody
    rw [h1, h2, h3, hc]
    simp [hs]

/-- Witness for amended C5: the default behavior on one read and one
write query. -/
theorem C5_executor_result_shape_witness :
    (∃ rs, (executeSqlQuery {} "  select * from books").result = .rows rs) ∧
    (∃ n, (executeSqlQuery {} "UPDATE books SET available = 1").result
      = .rowsAffected n) :=
  ⟨(C5_executor_result_shape {} "  select * from books" rfl rfl rfl).1
     (by decide),
   (C5_executor_result_shape {} "UPDATE books SET available = 1"
     rfl rfl rfl).2.1 (by decide) rfl⟩

/-- **C6, counterexample.**  As stated the claim is false: when the
provider call succeeds but returns an empty (or all-whitespace) reply,
the formatter returns the empty string. -/
theorem C6_counterexample :
    formatResponseToNaturalLanguage (.ok "") (.rowsAffected 1)
      (.str "RESERVE_BOOK") "Quiero reservar 1984" = "" := rfl

/-- **C6, amended.**  Whenever the provider call throws, the formatter
returns the deterministic fallback message — which echoes the original
request and the rendered result — and that message is never empty.  (A
successful provider call returns the stripped, encoding-repaired reply,
which is empty exactly when the reply is blank.) -/
theorem C6_formatter_fallback_nonempty (completion : Except String String)
    (e : String) (r : SqlExecResult) (op : Json) (u : String)
    (h : completion = .error e) :
    formatResponseToNaturalLanguage completion r op u
      = getFallbackResponse u r ∧
    formatResponseToNaturalLanguage completion r op u ≠ "" := by
  subst h
  refine ⟨rfl, ?_⟩
  intro hempty
  have hlen := congrArg String.length hempty
  simp only [formatResponseToNaturalLanguage, getFallbackResponse,
    String.length_append] at hlen
  have hz : ("" : String).length = 0 := rfl
  have hb : 0 < ("'. He procesado tu solicitud y el resultado fue: " : String).length := by
    decide
  omega

/-- Witness for amended C6: a throwing provider with a failed execution. -/
theorem C6_formatter_fallback_nonempty_witness :
    formatResponseToNaturalLanguage (.error "rate limited")
        (.dbError "timeout") Json.null "Quiero renovar mi reserva"
      = getFallbackResponse "Quiero renovar mi reserva" (.dbError "timeout") ∧
    formatResponseToNaturalLanguage (.error "rate limited")
        (.dbError "timeout") Json.null "Quiero renovar mi reserva" ≠ "" :=
  C6_formatter_fallback_nonempty (.error "rate limited") "rate limited"
    (.dbError "timeout") Json.null "Quiero renovar mi reserva" rfl

theorem fencedSearch_nil (tag : List Char) (ci : Bool) :
    fencedSearch tag ci [] = none := rfl

theorem fencedSearch_cons (tag : List Char) (ci : Bool) (c : Char) (t : List Char) :
    fencedSearch tag ci (c :: t) =
      if (if ci then prefixCI tag (c :: t) else tag.isPrefixOf (c :: t)) then
        match findClose ((c :: t).drop tag.length) with
        | some mid => some (pyStripL mid)
        | none => fencedSearch tag ci t
      else fencedSearch tag ci t := rfl

theorem isPrefixOf_self_append (l x : List Char) :
    l.isPrefixOf (l ++ x) = true := by
  induction l with
  | nil => simp [List.isPrefixOf]
  | cons c t ih => simp [List.isPrefixOf, ih]

theorem fencedSearch_append_left {tagTail : List Char} (pre rest : List Char)
    (hpre : '`' ∉ pre) :
    fencedSearch ('`' :: tagTail) false (pre ++ rest)
      = fencedSearch ('`' :: tagTail) false rest := by
  induction pre with
  | nil => rfl
  | cons c t ih =>
    have hc : ('`' == c) = false := by
      have : c ≠ '`' := fun h => hpre (by simp [h])
      simpa using fun h => this h.symm
    rw [List.cons_append, fencedSearch_cons]
    simp only [if_false, List.isPrefixOf, hc, Bool.false_and]
    exact ih (fun h => hpre (List.mem_cons_of_mem _ h))

theorem findClose_hit (mid post : List Char) (hmid : '`' ∉ mid) :
    findClose (mid ++ '`' :: '`' :: '`' :: post) = some mid := by
  induction mid with
  | nil => simp [findClose, List.isPrefixOf]
  | cons c t ih =>
    have hc : ('`' == c) = false := by
      have : c ≠ '`' := fun h => hmid (by simp [h])
      simpa using fun h => this h.symm
    rw [List.cons_append, findClose]
    simp only [List.isPrefixOf, hc, Bool.false_and, if_false]
    rw [ih (fun h => hmid (List.mem_cons_of_mem _ h))]
    rfl

theorem fencedSearch_hit (tagTail mid post : List Char)
    (hmid : '`' ∉ mid) :
    fencedSearch ('`' :: tagTail) false
        (('`' :: tagTail) ++ mid ++ '`' :: '`' :: '`' :: post)
      = some (pyStripL mid) := by
  rw [List.cons_append, List.cons_append, fencedSearch_cons]
  have hp : ('`' :: tagTail).isPrefixOf
      ('`' :: (tagTail ++ mid ++ '`' :: '`' :: '`' :: post)) = true := by
    simp
  have hd : ('`' :: (tagTail ++ mid ++ '`' :: '`' :: '`' :: post)).drop
      ('`' :: tagTail).length = mid ++ '`' :: '`' :: '`' :: post := by
    simp
  simp only [Bool.false_eq_true, if_false, hp, if_true, hd,
    findClose_hit _ _ hmid]

theorem pyStripL_wrap (a b m t1 t2 : List Char)
    (hm : m = '`' :: t1) (hmr : m.reverse = '`' :: t2) :
    pyStripL (a ++ m ++ b)
      = a.dropWhile pyIsSpace ++ m
        ++ (b.reverse.dropWhile pyIsSpace).reverse := by
  have hbt : pyIsSpace '`' = false := by decide
  unfold pyStripL
  have e1 : a ++ m ++ b = a ++ '`' :: (t1 ++ b) := by
    rw [hm]; simp
  rw [e1, dropWhile_append_cons _ _ _ _ hbt]
  have e2 : (a.dropWhile pyIsSpace ++ '`' :: (t1 ++ b)).reverse
      = b.reverse ++ '`' :: (t2 ++ (a.dropWhile pyIsSpace).reverse) := by
    have h3 : '`' :: (t1 ++ b) = m ++ b := by rw [hm]; simp
    rw [h3, ← List.append_assoc, List.reverse_append, List.reverse_append, hmr]
    simp
  rw [e2, dropWhile_append_cons _ _ _ _ hbt, List.reverse_append,
    List.reverse_cons, List.reverse_append]
  have h4 : t2.reverse ++ ['`'] = m := by
    rw [← List.reverse_cons, ← hmr, List.reverse_reverse]
  rw [List.append_assoc, List.append_assoc, ← List.append_assoc t2.reverse,
    h4]
  simp

/-- **C1.**  A reply containing a well-formed three-field payload inside a
json-tagged fenced block (and no stray backticks around it) parses to
exactly that payload, and the recovery heuristics are not consulted. -/
theorem C1_parser_roundtrip (pre mid post : List Char)
    (fields : List (String × Json))
    (hpre : '`' ∉ pre) (hmid : '`' ∉ mid)
    (hjson : jsonParse ⟨pyStripL mid⟩ = .ok (.obj fields))
    (hkeys : fields.map Prod.fst = ["sql", "operation_type", "explanation"]) :
    parseSqlResponseT ⟨pre ++ "```json".data ++ mid ++ "```".data ++ post⟩
      = .ok (.obj fields, false) := by
  have hdata : (⟨pre ++ "```json".data ++ mid ++ "```".data ++ post⟩ : String).data
      = pre ++ "```json".data ++ mid ++ "```".data ++ post := rfl
  -- the stripped reply keeps the fenced block intact
  have hm : "```json".data ++ mid ++ "```".data
      = '`' :: ("``json".data ++ mid ++ "```".data) := by simp
  have hmr : ("```json".data ++ mid ++ "```".data).reverse
      = '`' :: ('`' :: '`' :: (mid.reverse ++ "```json".data.reverse)) := by
    simp
  have hstrip : pyStripL (pre ++ "```json".data ++ mid ++ "```".data ++ post)
      = pre.dropWhile pyIsSpace ++ ("```json".data ++ mid ++ "```".data)
        ++ (post.reverse.dropWhile pyIsSpace).reverse := by
    have := pyStripL_wrap pre post ("```json".data ++ mid ++ "```".data)
      ("``json".data ++ mid ++ "```".data)
      ('`' :: '`' :: (mid.reverse ++ "```json".data.reverse)) hm hmr
    calc pyStripL (pre ++ "```json".data ++ mid ++ "```".data ++ post)
        = pyStripL (pre ++ ("```json".data ++ mid ++ "```".data) ++ post) := by
          simp
      _ = _ := this
  have hpre' : '`' ∉ pre.dropWhile pyIsSpace :=
    fun h => hpre ((List.dropWhile_sublist _).subset h)
  -- the first search succeeds with the stripped block contents
  have hsearch : fencedSearch "```json".data false
      (pyStripL (pre ++ "```json".data ++ mid ++ "```".data ++ post))
      = some (pyStripL mid) := by
    rw [hstrip]
    have htag : "```json".data = '`' :: "``json".data := rfl
    calc fencedSearch "```json".data false
          (pre.dropWhile pyIsSpace ++ ("```json".data ++ mid ++ "```".data)
            ++ (post.reverse.dropWhile pyIsSpace).reverse)
        = fencedSearch "```json".data false
            (("```json".data ++ mid ++ "```".data)
              ++ (post.reverse.dropWhile pyIsSpace).reverse) := by
          rw [htag, List.append_assoc]
          exact fencedSearch_append_left _ _ hpre'
      _ = some (pyStripL mid) := by
          rw [htag]
          have := fencedSearch_hit "``json".data mid
            ((post.reverse.dropWhile pyIsSpace).reverse) hmid
          calc fencedSearch ('`' :: "``json".data) false
                ((('`' :: "``json".data) ++ mid ++ "```".data)
                  ++ (post.reverse.dropWhile pyIsSpace).reverse)
              = fencedSearch ('`' :: "``json".data) false
                  (('`' :: "``json".data) ++ mid ++ '`' :: '`' :: '`' ::
                    (post.reverse.dropWhile pyIsSpace).reverse) := by simp
            _ = some (pyStripL mid) := this
  -- the decodable group is nonempty, so the truthiness guard passes
  have hne : (pyStripL mid).isEmpty = false := by
    cases hm0 : pyStripL mid with
    | nil =>
      rw [hm0] at hjson
      rw [show jsonParse (⟨[]⟩ : String) = .error "Expecting value" from rfl]
        at hjson
      exact Except.noConfusion hjson
    | cons c t => rfl
  -- assemble `_parse_sql_response`
  have hcand : jsonCandidate ⟨pre ++ "```json".data ++ mid ++ "```".data ++ post⟩
      = ⟨pyStripL mid⟩ := by
    unfold jsonCandidate
    rw [show pyStrip (⟨pre ++ "```json".data ++ mid ++ "```".data ++ post⟩ : String)
        = ⟨pyStripL (pre ++ "```json".data ++ mid ++ "```".data ++ post)⟩ from rfl]
    simp only [hsearch, hne, Bool.false_eq_true, if_false]
    rw [show (⟨pyStripL (pyStripL mid)⟩ : String) = ⟨pyStripL mid⟩ from by
      rw [pyStripL_idem]]
  unfold parseSqlResponseT
  rw [hcand, hjson]
  rcases fields with _ | ⟨⟨k1, v1⟩, fields⟩
  · simp at hkeys
  rcases fields with _ | ⟨⟨k2, v2⟩, fields⟩
  · simp at hkeys
  rcases fields with _ | ⟨⟨k3, v3⟩, fields⟩
  · simp at hkeys
  rcases fields with _ | ⟨⟨k4, v4⟩, fields⟩
  · simp only [List.map_cons, List.map_nil, List.cons.injEq, and_true] at hkeys
    obtain ⟨rfl, rfl, rfl, -⟩ := hkeys
    simp [checkAllKeys, pyContainsKey]
  · simp at hkeys

/-- Witness for C1: a concrete tagged reply with surrounding prose. -/
theorem C1_parser_roundtrip_witness :
    parseSqlResponseT ⟨"Claro: ".data ++ "```json".data
        ++ "\n\x7b\"sql\": \"SELECT 1\", \"operation_type\": \"LIST_BOOKS\", \"explanation\": \"ok\"\x7d\n".data
        ++ "```".data ++ " fin".data⟩
      = .ok (.obj [("sql", .str "SELECT 1"),
                   ("operation_type", .str "LIST_BOOKS"),
                   ("explanation", .str "ok")], false) :=
  C1_parser_roundtrip "Claro: ".data
    "\n\x7b\"sql\": \"SELECT 1\", \"operation_type\": \"LIST_BOOKS\", \"explanation\": \"ok\"\x7d\n".data
    " fin".data
    [("sql", .str "SELECT 1"), ("operation_type", .str "LIST_BOOKS"),
     ("explanation", .str "ok")]
    (by decide) (by decide) rfl rfl

theorem prefixCI_eq (pat s : List Char) :
    prefixCI pat s = (pyUpperL pat).isPrefixOf (pyUpperL s) := by
  induction pat generalizing s with
  | nil => simp [prefixCI, pyUpperL, List.isPrefixOf]
  | cons p ps ih =>
    cases s with
    | nil => simp [prefixCI, pyUpperL, List.isPrefixOf]
    | cons c cs =>
      by_cases h : p.toUpper = c.toUpper <;>
        simp [prefixCI, pyUpperL, List.isPrefixOf, h, ih]

theorem containsSub_cons_false {x : Char} {xs pat : List Char}
    (h : containsSub (x :: xs) pat = false) :
    pat.isPrefixOf (x :: xs) = false ∧ containsSub xs pat = false := by
  rw [containsSub] at h
  exact ⟨by simp_all, by simp_all⟩

theorem sqlColonSearch_none (s : List Char)
    (h : containsSub (pyUpperL s) "SQL:".data = false) :
    sqlColonSearch s = none := by
  induction s with
  | nil => rfl
  | cons c t ih =>
    have hup : pyUpperL (c :: t) = c.toUpper :: pyUpperL t := rfl
    rw [hup] at h
    obtain ⟨h1, h2⟩ := containsSub_cons_false h
    have hci : prefixCI ['S', 'Q', 'L', ':'] (c :: t) = false := by
      rw [prefixCI_eq]
      rw [show pyUpperL ['S', 'Q', 'L', ':'] = "SQL:".data from rfl]
      rw [show pyUpperL (c :: t) = c.toUpper :: pyUpperL t from rfl]
      exact h1
    rw [sqlColonSearch, hci]
    simp only [Bool.false_eq_true, if_false]
    exact ih h2

theorem fencedSearchCI_none (s : List Char)
    (h : containsSub (pyUpperL s) "```SQL".data = false) :
    fencedSearch "```sql".data true s = none := by
  induction s with
  | nil => rfl
  | cons c t ih =>
    rw [show pyUpperL (c :: t) = c.toUpper :: pyUpperL t from rfl] at h
    obtain ⟨h1, h2⟩ := containsSub_cons_false h
    have hci : prefixCI "```sql".data (c :: t) = false := by
      rw [prefixCI_eq]
      rw [show pyUpperL "```sql".data = "```SQL".data from rfl]
      rw [show pyUpperL (c :: t) = c.toUpper :: pyUpperL t from rfl]
      exact h1
    rw [fencedSearch_cons]
    simp only [if_true, hci, Bool.false_eq_true, if_false]
    exact ih h2

theorem takeThroughSemi_none (s : List Char) (h : ';' ∉ s) :
    takeThroughSemi s = none := by
  induction s with
  | nil => rfl
  | cons c t ih =>
    have hc : c ≠ ';' := fun hc => h (by simp [hc])
    rw [takeThroughSemi]
    simp only [hc, if_false]
    rw [ih (fun hm => h (List.mem_cons_of_mem _ hm))]
    rfl

theorem stmtSearch_none (kw s : List Char) (h : ';' ∉ s) :
    stmtSearch kw s = none := by
  induction s with
  | nil => rfl
  | cons c t ih =>
    have ht : ';' ∉ t := fun hm => h (List.mem_cons_of_mem _ hm)
    have hdrop : ';' ∉ (c :: t).drop kw.length :=
      fun hm => h (List.mem_of_mem_drop hm)
    rw [stmtSearch]
    by_cases hp : prefixCI kw (c :: t)
    · rw [if_pos hp, takeThroughSemi_none _ hdrop]
      exact ih ht
    · rw [if_neg hp]
      exact ih ht

theorem extractFallbackSql_default (r : String)
    (h1 : containsSub (pyUpperL r.data) "SQL:".data = false)
    (h2 : containsSub (pyUpperL r.data) "```SQL".data = false)
    (h3 : ';' ∉ r.data) :
    extractFallbackSql r = defaultFallbackSql := by
  unfold extractFallbackSql
  simp only [sqlColonSearch_none _ h1, fencedSearchCI_none _ h2,
    stmtSearch_none _ _ h3]

/-- Whether the reply contains any of the twelve bilingual operation
keywords checked by `_extract_operation_type`. -/
def hasOpKeyword (r : String) : Bool :=
  let up := pyUpperL r.data
  containsSub up "RESERVE".data || containsSub up "RESERVAR".data ||
  containsSub up "RENEW".data || containsSub up "RENOVAR".data ||
  containsSub up "CANCEL".data || containsSub up "CANCELAR".data ||
  containsSub up "ADD".data || containsSub up "AGREGAR".data ||
  containsSub up "REMOVE".data || containsSub up "ELIMINAR".data ||
  containsSub up "LIST".data || containsSub up "MOSTRAR".data

theorem extractOperationType_default (r : String)
    (h : hasOpKeyword r = false) : extractOperationType r = "LIST_BOOKS" := by
  unfold hasOpKeyword at h
  simp only [Bool.or_eq_false_iff] at h
  obtain ⟨⟨⟨⟨⟨⟨⟨⟨⟨⟨⟨k1, k2⟩, k3⟩, k4⟩, k5⟩, k6⟩, k7⟩, k8⟩, k9⟩, k10⟩, k11⟩, k12⟩ := h
  unfold extractOperationType
  simp only [k1, k2, k3, k4, k5, k6, k7, k8, k9, k10, k11, k12,
    Bool.or_self, Bool.false_eq_true, if_false]

/-- The recovery path of `_parse_sql_response` is taken: the candidate
fails to decode, or decodes to a value on which the three-key membership
check cleanly reports a missing key. -/
def fallsToRecovery (r : String) : Bool :=
  match jsonParse (jsonCandidate r) with
  | .error _ => true
  | .ok v =>
    match checkAllKeys v ["sql", "operation_type", "explanation"] with
    | .ok false => true
    | _ => false

/-- **C3, counterexample.**  As stated the claim is false: the reply
`"42"` has no decodable three-field payload and no keywords, yet
`_parse_sql_response` does not return the fallback payload — the membership
check `key in parsed` raises an uncaught `TypeError` on the decoded
integer. -/
theorem C3_counterexample : ¬ ∃ p, parseSqlResponseT "42" = .ok p := by
  rintro ⟨p, hp⟩
  rw [show parseSqlResponseT "42"
      = .error "argument of type is not iterable" from rfl] at hp
  exact Except.noConfusion hp

/-- **C3, amended.**  For a reply whose candidate payload fails to decode
or decodes to a value missing one of the three keys (rather than decoding
to a number, boolean or null, where the code raises `TypeError`), and
which contains no operation keyword and no SQL pattern, the parser returns
the fallback payload: the default available-books query, operation kind
`LIST_BOOKS`, and an explanation embedding a 200-character excerpt of the
reply. -/
theorem C3_parser_default (r : String)
    (hrec : fallsToRecovery r = true)
    (hkw : hasOpKeyword r = false)
    (h1 : containsSub (pyUpperL r.data) "SQL:".data = false)
    (h2 : containsSub (pyUpperL r.data) "```SQL".data = false)
    (h3 : ';' ∉ r.data) :
    ∃ m, parseSqlResponseT r
      = .ok (.obj [("sql", .str defaultFallbackSql),
                   ("operation_type", .str "LIST_BOOKS"),
                   ("explanation", .str ("Error parsing response: " ++ m
                     ++ ". Raw: " ++ pyTake 200 r ++ "..."))], true) := by
  have hfb := extractFallbackSql_default r h1 h2 h3
  have hop := extractOperationType_default r hkw
  unfold fallsToRecovery at hrec
  unfold parseSqlResponseT
  rcases hj : jsonParse (jsonCandidate r) with e | v
  · refine ⟨e, ?_⟩
    unfold fallbackDict
    rw [hfb, hop]
    simp
  · rw [hj] at hrec
    rcases hc : checkAllKeys v ["sql", "operation_type", "explanation"]
        with e' | b
    · simp [hc] at hrec
    · cases b with
      | true => simp [hc] at hrec
      | false =>
        refine ⟨"Estructura JSON incompleta", ?_⟩
        simp only [hc]
        unfold fallbackDict
        rw [hfb, hop]
        simp

/-- Witness for amended C3: unrecognizable prose falls back to the
default read-only listing. -/
theorem C3_parser_default_witness :
    ∃ m, parseSqlResponseT "No entiendo tu pregunta"
      = .ok (.obj [("sql", .str defaultFallbackSql),
                   ("operation_type", .str "LIST_BOOKS"),
                   ("explanation", .str ("Error parsing response: " ++ m
                     ++ ". Raw: " ++ pyTake 200 "No entiendo tu pregunta"
                     ++ "..."))], true) :=
  C3_parser_default "No entiendo tu pregunta" rfl rfl rfl rfl (by decide)

theorem takeThroughSemi_last {s g : List Char}
    (h : takeThroughSemi s = some g) : g ≠ [] ∧ g.getLast? = some ';' := by
  induction s generalizing g with
  | nil => simp [takeThroughSemi] at h
  | cons c t ih =>
    rw [takeThroughSemi] at h
    by_cases hc : c = ';'
    · simp only [hc, if_true, Option.some.injEq] at h
      subst h
      exact ⟨by simp, rfl⟩
    · simp only [hc, if_false] at h
      rcases ht : takeThroughSemi t with _ | g'
      · rw [ht] at h; simp at h
      · rw [ht] at h
        simp only [Option.map_some', Option.some.injEq] at h
        subst h
        obtain ⟨hne, hlast⟩ := ih ht
        refine ⟨by simp, ?_⟩
        rw [show c :: g' = [c] ++ g' from rfl,
          List.getLast?_append_of_ne_nil _ hne]
        exact hlast

theorem stmtSearch_last {kw s g : List Char}
    (h : stmtSearch kw s = some g) : g.getLast? = some ';' := by
  induction s generalizing g with
  | nil => simp [stmtSearch] at h
  | cons c t ih =>
    rw [stmtSearch] at h
    by_cases hp : prefixCI kw (c :: t)
    · rw [if_pos hp] at h
      rcases ht : takeThroughSemi ((c :: t).drop kw.length) with _ | tail
      · rw [ht] at h
        exact ih h
      · rw [ht] at h
        simp only [Option.some.injEq] at h
        subst h
        obtain ⟨hne, hlast⟩ := takeThroughSemi_last ht
        rw [List.getLast?_append_of_ne_nil _ hne]
        exact hlast
    · rw [if_neg hp] at h
      exact ih h

theorem mem_of_getLast? {l : List Char} {a : Char} (h : l.getLast? = some a) :
    a ∈ l := by
  rw [List.getLast?_eq_head?_reverse] at h
  rcases hr : l.reverse with _ | ⟨x, xs⟩
  · rw [hr] at h; simp at h
  · rw [hr] at h
    simp only [List.head?_cons, Option.some.injEq] at h
    have hx : a ∈ l.reverse := by
      rw [hr, ← h]
      exact List.mem_cons_self x xs
    simpa using hx

theorem pyStripL_last_semi {g : List Char} (h : g.getLast? = some ';') :
    (pyStripL g).getLast? = some ';' := by
  have hsemi : pyIsSpace ';' = false := by decide
  have hA : (g.dropWhile pyIsSpace).getLast? = some ';' := by
    have hsuf : List.IsSuffix (g.dropWhile pyIsSpace) g :=
      List.dropWhile_suffix _
    obtain ⟨w, hw⟩ := hsuf
    rcases hAe : g.dropWhile pyIsSpace with _ | ⟨a, t⟩
    · -- impossible: all of g would be whitespace, but its last is ';'
      exfalso
      rw [List.dropWhile_eq_nil_iff] at hAe
      have hmem : ';' ∈ g := mem_of_getLast? h
      exact absurd (hAe _ hmem) (by simp [hsemi])
    · rw [← hw, List.getLast?_append_of_ne_nil _
        (by simp [hAe] : g.dropWhile pyIsSpace ≠ [])] at h
      rw [hAe] at h
      exact h
  -- the right strip keeps the trailing ';'
  unfold pyStripL
  rcases hAe : g.dropWhile pyIsSpace with _ | ⟨a, t⟩
  · rw [hAe] at hA; simp at hA
  · rw [hAe] at hA
    have hrev : (a :: t).reverse.head? = some ';' := by
      rw [List.head?_reverse]
      exact hA
    rcases hre : (a :: t).reverse with _ | ⟨x, xs⟩
    · simp at hre
    · rw [hre] at hrev
      simp only [List.head?_cons, Option.some.injEq] at hrev
      subst hrev
      rw [List.dropWhile_cons, hsemi]
      simp

/-- **C10.**  With no `SQL:` line and no sql-tagged fence in the reply,
the bare-statement recovery only ever returns a string terminated by `;`:
if the reply has no semicolon at all the default query is returned, and in
general the recovered query either is the default or ends in `;`. -/
theorem C10_semicolon_recovery (r : String)
    (h1 : containsSub (pyUpperL r.data) "SQL:".data = false)
    (h2 : containsSub (pyUpperL r.data) "```SQL".data = false) :
    (';' ∉ r.data → extractFallbackSql r = defaultFallbackSql) ∧
    (extractFallbackSql r = defaultFallbackSql ∨
      (extractFallbackSql r).data.getLast? = some ';') := by
  constructor
  · intro h3
    exact extractFallbackSql_default r h1 h2 h3
  · unfold extractFallbackSql
    simp only [sqlColonSearch_none _ h1, fencedSearchCI_none _ h2]
    rcases hs1 : stmtSearch "SELECT".data r.data with _ | g
    · rcases hs2 : stmtSearch "INSERT".data r.data with _ | g
      · rcases hs3 : stmtSearch "UPDATE".data r.data with _ | g
        · rcases hs4 : stmtSearch "DELETE".data r.data with _ | g
          · exact Or.inl rfl
          · exact Or.inr (pyStripL_last_semi (stmtSearch_last hs4))
        · exact Or.inr (pyStripL_last_semi (stmtSearch_last hs3))
      · exact Or.inr (pyStripL_last_semi (stmtSearch_last hs2))
    · exact Or.inr (pyStripL_last_semi (stmtSearch_last hs1))

/-- Witness for C10: a reply with a SELECT statement but no semicolon
falls back to the default query. -/
theorem C10_semicolon_recovery_witness :
    ((';' ∉ "try SELECT title FROM books".data →
      extractFallbackSql "try SELECT title FROM books" = defaultFallbackSql) ∧
     (extractFallbackSql "try SELECT title FROM books" = defaultFallbackSql ∨
      (extractFallbackSql "try SELECT title FROM books").data.getLast?
        = some ';')) ∧
    extractFallbackSql "try SELECT title FROM books" = defaultFallbackSql :=
  ⟨C10_semicolon_recovery "try SELECT title FROM books" rfl rfl,
   (C10_semicolon_recovery "try SELECT title FROM books" rfl rfl).1
     (by decide)⟩

theorem isEmpty_false_of_ne {s : String} (h : s ≠ "") : s.isEmpty = false := by
  cases he : s.isEmpty with
  | false => rfl
  | true => exact absurd ((String.isEmpty_iff s).mp he) h

/-- A validated request passes the robustness re-checks at the top of
`process_single_email`. -/
theorem valid_req_guards {s b f : String} {req : EmailRequest}
    (h : mkEmailRequest s b f = .ok req) :
    req.from_email.isEmpty = false ∧
    req.from_email.data.contains '@' = true ∧
    (pyStrip req.subject).isEmpty = false ∧
    (pyStrip req.body).isEmpty = false := by
  obtain ⟨hsub, hsubne, hbody, hbodyne, -, hfrom, hmatch⟩ := mkEmailRequest_ok h
  have hfe : req.from_email ≠ "" := by
    rw [hfrom]
    intro hc
    have hnil : pyStripL f.data = [] := congrArg String.data hc
    rw [hnil] at hmatch
    simp [matchEmail, breakFirst] at hmatch
  refine ⟨isEmpty_false_of_ne hfe, ?_, isEmpty_false_of_ne ?_,
    isEmpty_false_of_ne ?_⟩
  · have hmem : '@' ∈ req.from_email.data := by
      rw [hfrom]
      exact matchEmail_contains_at hmatch
    exact List.elem_iff.mpr hmem
  · rw [hsub, pyStrip_idem]; exact hsubne
  · rw [hbody, pyStrip_idem]; exact hbodyne

/-- **C9.**  A parser result whose `sql` field is any falsy value (empty
string, null, ...) short-circuits `process_single_email`: the result is a
failure and no execution, formatting, or delivery is attempted. -/
theorem C9_falsy_query_short_circuit (env : LlmEnv)
    (subject body from_email : String) (req : EmailRequest)
    (hok : mkEmailRequest subject body from_email = .ok req)
    (hfalsy : pyTruthy ((jsonGet (naturalLanguageToSql env.completion)
        "sql").getD .null) = false) :
    (submitIntent env subject body from_email).1.success = false ∧
    (submitIntent env subject body from_email).2.dbExecuted = false ∧
    (submitIntent env subject body from_email).2.formatCalled = false ∧
    (submitIntent env subject body from_email).2.sendAttempted = false := by
  obtain ⟨g1, g2, g3, g4⟩ := valid_req_guards hok
  unfold submitIntent
  rw [hok]
  unfold processValidated
  simp only [g1, g2, g3, g4, hfalsy, Bool.not_true, Bool.or_false,
    Bool.false_or, Bool.not_false, if_true, Bool.false_eq_true, if_false]
  rcases hm : (jsonGet (naturalLanguageToSql env.completion)
      "explanation").getD (.str "No se pudo entender la solicitud")
    with _ | b | n | m | l | fs
  · exact ⟨rfl, rfl, rfl, rfl⟩
  · exact ⟨rfl, rfl, rfl, rfl⟩
  · exact ⟨rfl, rfl, rfl, rfl⟩
  · by_cases hb : pyStrip m = ""
    · simp [mkOperationResult, hb, outerError]
    · simp [mkOperationResult, hb]
  · exact ⟨rfl, rfl, rfl, rfl⟩
  · exact ⟨rfl, rfl, rfl, rfl⟩

/-- Witness for C9: a decoded payload with an empty-string query. -/
theorem C9_falsy_query_short_circuit_witness :
    (submitIntent
      { completion := .ok
          "\x7b\"sql\": \"\", \"operation_type\": \"LIST_BOOKS\", \"explanation\": \"sin consulta\"\x7d" }
      "Consulta" "Quiero ver los libros" "user@test.com").1.success = false ∧
    (submitIntent
      { completion := .ok
          "\x7b\"sql\": \"\", \"operation_type\": \"LIST_BOOKS\", \"explanation\": \"sin consulta\"\x7d" }
      "Consulta" "Quiero ver los libros" "user@test.com").2.dbExecuted = false ∧
    (submitIntent
      { completion := .ok
          "\x7b\"sql\": \"\", \"operation_type\": \"LIST_BOOKS\", \"explanation\": \"sin consulta\"\x7d" }
      "Consulta" "Quiero ver los libros" "user@test.com").2.formatCalled = false ∧
    (submitIntent
      { completion := .ok
          "\x7b\"sql\": \"\", \"operation_type\": \"LIST_BOOKS\", \"explanation\": \"sin consulta\"\x7d" }
      "Consulta" "Quiero ver los libros" "user@test.com").2.sendAttempted = false :=
  C9_falsy_query_short_circuit
    { completion := .ok
        "\x7b\"sql\": \"\", \"operation_type\": \"LIST_BOOKS\", \"explanation\": \"sin consulta\"\x7d" }
    "Consulta" "Quiero ver los libros" "user@test.com"
    ⟨"Consulta", "Quiero ver los libros", "user@test.com"⟩ rfl rfl

/-- **C7, counterexample.**  As stated the claim is false: when the
parser yields a null query with a blank explanation, the failure message
is not the explanation text — the blank message fails `OperationResult`
validation and the generic handler message is used instead. -/
theorem C7_counterexample :
    jsonGet (naturalLanguageToSql (.ok
      "\x7b\"sql\": null, \"operation_type\": \"ERROR\", \"explanation\": \"\"\x7d"))
      "explanation" = some (.str "") ∧
    (submitIntent
      { completion := .ok
          "\x7b\"sql\": null, \"operation_type\": \"ERROR\", \"explanation\": \"\"\x7d" }
      "Consulta" "Quiero ver los libros" "user@test.com").1.success = false ∧
    (submitIntent
      { completion := .ok
          "\x7b\"sql\": null, \"operation_type\": \"ERROR\", \"explanation\": \"\"\x7d" }
      "Consulta" "Quiero ver los libros" "user@test.com").1.message ≠ "" := by
  refine ⟨rfl, rfl, ?_⟩
  intro hc
  exact absurd (congrArg String.data hc) (by decide)

/-- **C7, amended.**  When the parser yields a null query, the pipeline
stops before execution, formatting and delivery, with a failure result;
its message is the explanation text stripped of surrounding whitespace
when that is non-blank, and otherwise (blank explanation, rejected by the
result model's validator) a generic `Error procesando email:` message. -/
theorem C7_null_query_terminal (env : LlmEnv)
    (subject body from_email : String) (req : EmailRequest) (t : String)
    (hok : mkEmailRequest subject body from_email = .ok req)
    (hnull : jsonGet (naturalLanguageToSql env.completion) "sql"
      = some Json.null)
    (hexp : jsonGet (naturalLanguageToSql env.completion) "explanation"
      = some (.str t)) :
    (submitIntent env subject body from_email).1.success = false ∧
    (submitIntent env subject body from_email).2.dbExecuted = false ∧
    (submitIntent env subject body from_email).2.formatCalled = false ∧
    (submitIntent env subject body from_email).2.sendAttempted = false ∧
    (pyStrip t ≠ "" →
      (submitIntent env subject body from_email).1.message = pyStrip t) ∧
    (pyStrip t = "" →
      "Error procesando email: ".data.isPrefixOf
        (submitIntent env subject body from_email).1.message.data = true) := by
  obtain ⟨g1, g2, g3, g4⟩ := valid_req_guards hok
  have hfalsy : pyTruthy ((jsonGet (naturalLanguageToSql env.completion)
      "sql").getD .null) = false := by
    rw [hnull]; rfl
  unfold submitIntent
  rw [hok]
  unfold processValidated
  simp only [g1, g2, g3, g4, hfalsy, hexp, Bool.not_true, Bool.or_false,
    Bool.false_or, Bool.not_false, if_true, Bool.false_eq_true, if_false,
    Option.getD_some]
  by_cases hb : pyStrip t = ""
  · simp only [mkOperationResult, if_pos hb]
    simp [outerError, hb]
    decide
  · simp only [mkOperationResult, if_neg hb]
    simp [hb]

/-- Witness for amended C7: a null query with a padded explanation; the
failure message is the trimmed explanation. -/
theorem C7_null_query_terminal_witness :
    (submitIntent
      { completion := .ok
          "\x7b\"sql\": null, \"operation_type\": \"ERROR\", \"explanation\": \" sin intencion \"\x7d" }
      "Consulta" "Quiero ver los libros" "user@test.com").1.success = false ∧
    (submitIntent
      { completion := .ok
          "\x7b\"sql\": null, \"operation_type\": \"ERROR\", \"explanation\": \" sin intencion \"\x7d" }
      "Consulta" "Quiero ver los libros" "user@test.com").2.dbExecuted = false ∧
    (pyStrip " sin intencion " ≠ "" →
      (submitIntent
        { completion := .ok
            "\x7b\"sql\": null, \"operation_type\": \"ERROR\", \"explanation\": \" sin intencion \"\x7d" }
        "Consulta" "Quiero ver los libros" "user@test.com").1.message
        = pyStrip " sin intencion ") := by
  have h := C7_null_query_terminal
    { completion := .ok
        "\x7b\"sql\": null, \"operation_type\": \"ERROR\", \"explanation\": \" sin intencion \"\x7d" }
    "Consulta" "Quiero ver los libros" "user@test.com"
    ⟨"Consulta", "Quiero ver los libros", "user@test.com"⟩
    " sin intencion " rfl rfl rfl
  exact ⟨h.1, h.2.1, h.2.2.2.2.1⟩

theorem batchLoop_spec (benv : BatchEnv) :
    ∀ (es : List Email) (i count : Nat) (errors : List (String × String))
      (events : List BatchEvent),
    batchLoop benv i es count errors events =
      { returnValue := none,
        processedCount := count + ((es.enumFrom i).filter
          (fun ie => ((batchStep benv ie).1).isNone)).length,
        errors := errors ++ (es.enumFrom i).filterMap
          (fun ie => ((batchStep benv ie).1).map
            (fun m => (ie.2.fromAddr, m))),
        events := events ++ (es.enumFrom i).flatMap
          (fun ie => (batchStep benv ie).2) } := by
  intro es
  induction es with
  | nil =>
    intro i count errors events
    simp [batchLoop, List.enumFrom]
  | cons e rest ih =>
    intro i count errors events
    rw [show List.enumFrom i (e :: rest)
      = (i, e) :: List.enumFrom (i + 1) rest from rfl]
    rcases hmk : mkEmailRequest e.subject e.body e.fromAddr with msg | req
    · have hstep : batchStep benv (i, e)
          = (some ("Error procesando email de " ++ e.fromAddr ++ ": " ++ msg),
             [.constructionFailed e.fromAddr]) := by
        unfold batchStep
        rw [hmk]
      rw [batchLoop, hmk]
      dsimp only
      rw [ih]
      simp [hstep]
    · have hbody : batchStep benv (i, e)
          = (if (processValidated (benv.envFor i) req).1.success then
              (none, [.processed e.fromAddr true, .sleep 2])
             else
              (some (processValidated (benv.envFor i) req).1.message,
               [.processed e.fromAddr false, .sleep 2])) := by
        unfold batchStep
        rw [hmk]
      rcases hps : processValidated (benv.envFor i) req with ⟨result, tr⟩
      have hstep : batchStep benv (i, e)
          = (if result.success then (none, [.processed e.fromAddr true, .sleep 2])
             else (some result.message,
                   [.processed e.fromAddr false, .sleep 2])) := by
        rw [hbody, hps]
      by_cases hs : result.success
      · rw [batchLoop, hmk]
        dsimp only
        rw [hps]
        dsimp only
        simp only [hs, if_true]
        rw [ih]
        simp [hstep, hs, Nat.add_assoc, Nat.add_comm 1]
      · rw [batchLoop, hmk]
        dsimp only
        rw [hps]
        dsimp only
        simp only [hs, Bool.false_eq_true, if_false]
        rw [ih]
        simp [hstep, hs]

/-- **C8, counterexample.**  As stated the claim is false: the batch
entry point returns `None` (it has no `return` statement), even though it
computes the aggregate internally — here one message is fetched, fails,
and lands in the internal `errors` list, yet nothing is returned. -/
theorem C8_counterexample :
    (processAllPendingEmails sampleBatchEnv).returnValue = none ∧
    (processAllPendingEmails sampleBatchEnv).errors.length
      + (processAllPendingEmails sampleBatchEnv).processedCount = 1 :=
  ⟨rfl, rfl⟩

/-- **C8, amended.**  The batch entry point pulls the unread messages and
handles them strictly sequentially; per message it counts a success,
records a failure in `errors` (message construction errors included, which
skip that message's throttle), and sleeps two seconds after each processed
message (including the last).  The aggregate is computed and logged
internally, but the function returns `None`. -/
theorem C8_batch_aggregation (benv : BatchEnv) (emails : List Email)
    (hf : benv.fetchOutcome = .ok emails) :
    processAllPendingEmails benv =
      { returnValue := none,
        processedCount := (emails.enum.filter
          (fun ie => ((batchStep benv ie).1).isNone)).length,
        errors := emails.enum.filterMap
          (fun ie => ((batchStep benv ie).1).map
            (fun m => (ie.2.fromAddr, m))),
        events := emails.enum.flatMap (fun ie => (batchStep benv ie).2) } := by
  unfold processAllPendingEmails
  rw [hf]
  rw [show emails.enum = emails.enumFrom 0 from rfl]
  simpa using batchLoop_spec benv emails 0 0 [] []

/-- Witness for amended C8: one fetched message. -/
theorem C8_batch_aggregation_witness :
    processAllPendingEmails sampleBatchEnv =
      { returnValue := none,
        processedCount := (sampleEmails.enum.filter
          (fun ie => ((batchStep sampleBatchEnv ie).1).isNone)).length,
        errors := sampleEmails.enum.filterMap
          (fun ie => ((batchStep sampleBatchEnv ie).1).map
            (fun m => (ie.2.fromAddr, m))),
        events := sampleEmails.enum.flatMap
          (fun ie => (batchStep sampleBatchEnv ie).2) } :=
  C8_batch_aggregation sampleBatchEnv sampleEmails rfl

end BiblioteEmail
